import Mathlib

/-!
Verification of the mtx-toolkit control-plane specification.

The repository's shipped code is the dashboard UI; the control-plane
components themselves (Health State Machine, Remediation Engine, Config
Lifecycle Manager, Retention & Archival Engine, Session Registry & Kick
Coordinator) are reached only through API calls from the UI. Definitions
below that embed UI code cite their file and lines; definitions whose doc
comment starts with `Modelled from the spec:` reconstruct a backend
component that the repository does not ship, faithfully to the spec's
words.
-/

set_option autoImplicit false

namespace MtxToolkit

/-! ## Viewer sessions and per-path viewer counts (Streams page)

Embedded from src/frontend/src/pages/Streams.tsx. -/

/-- One viewer session as consumed by the Streams page; only the fields the
viewer-count computation reads (`session.path`). -/
structure ViewerSession where
  id : String
  path : String
deriving DecidableEq

/-- One step of the tally: `viewersByPath[session.path] =
(viewersByPath[session.path] || 0) + 1` (Streams.tsx lines 90-95), embedded
as an update of an association list of per-path counts. -/
def bumpPath : List (String × Nat) → String → List (String × Nat)
  | [], p => [(p, 1)]
  | (q, n) :: rest, p =>
    if q = p then (q, n + 1) :: rest else (q, n) :: bumpPath rest p

/-- The `viewersByPath` record built by the Streams page from the full
session list (Streams.tsx lines 90-95). -/
def viewersByPath (sessions : List ViewerSession) : List (String × Nat) :=
  sessions.foldl (fun acc s => bumpPath acc s.path) []

/-- Count looked up for a path in a tally, `0` when absent: the
`viewersByPath[stream.path] || 0` read at Streams.tsx line 327. -/
def countFor (acc : List (String × Nat)) (p : String) : Nat :=
  match acc.find? (fun e => e.1 = p) with
  | some e => e.2
  | none => 0

/-- The viewer count displayed for a stream on the Streams page
(Streams.tsx line 327). -/
def displayedViewerCount (sessions : List ViewerSession) (path : String) : Nat :=
  countFor (viewersByPath sessions) path

/-- Sum of all per-path counts in a tally. -/
def sumCounts (acc : List (String × Nat)) : Nat :=
  (acc.map Prod.snd).sum

theorem countFor_cons (q : String) (n : Nat) (l : List (String × Nat))
    (p : String) :
    countFor ((q, n) :: l) p = if q = p then n else countFor l p := by
  by_cases h : q = p <;> simp [countFor, List.find?_cons, h]

theorem sumCounts_cons (q : String) (n : Nat) (l : List (String × Nat)) :
    sumCounts ((q, n) :: l) = n + sumCounts l := by
  simp [sumCounts]

theorem countFor_bumpPath_same (acc : List (String × Nat)) (p : String) :
    countFor (bumpPath acc p) p = countFor acc p + 1 := by
  induction acc with
  | nil => simp [bumpPath, countFor_cons, countFor]
  | cons e rest ih =>
    obtain ⟨q, n⟩ := e
    by_cases h : q = p
    · simp [bumpPath, countFor_cons, h]
    · simp [bumpPath, countFor_cons, h, ih]

theorem countFor_bumpPath_ne (acc : List (String × Nat)) (p q : String)
    (h : q ≠ p) : countFor (bumpPath acc q) p = countFor acc p := by
  induction acc with
  | nil => simp [bumpPath, countFor_cons, countFor, h]
  | cons e rest ih =>
    obtain ⟨r, n⟩ := e
    by_cases hr : r = q
    · subst hr
      simp [bumpPath, countFor_cons, h]
    · simp [bumpPath, countFor_cons, hr, ih]

theorem sumCounts_bumpPath (acc : List (String × Nat)) (p : String) :
    sumCounts (bumpPath acc p) = sumCounts acc + 1 := by
  induction acc with
  | nil => simp [bumpPath, sumCounts]
  | cons e rest ih =>
    obtain ⟨q, n⟩ := e
    by_cases h : q = p
    · simp [bumpPath, sumCounts_cons, h]
      omega
    · simp [bumpPath, sumCounts_cons, h, ih]
      omega

theorem countFor_fold (sessions : List ViewerSession)
    (acc : List (String × Nat)) (p : String) :
    countFor (sessions.foldl (fun a s => bumpPath a s.path) acc) p
      = countFor acc p + (sessions.filter (fun s => s.path = p)).length := by
  induction sessions generalizing acc with
  | nil => simp
  | cons s rest ih =>
    simp only [List.foldl_cons, ih]
    by_cases h : s.path = p
    · rw [h, countFor_bumpPath_same]
      simp [List.filter_cons, h]
      omega
    · rw [countFor_bumpPath_ne acc p s.path h]
      simp [List.filter_cons, h]

theorem sumCounts_fold (sessions : List ViewerSession)
    (acc : List (String × Nat)) :
    sumCounts (sessions.foldl (fun a s => bumpPath a s.path) acc)
      = sumCounts acc + sessions.length := by
  induction sessions generalizing acc with
  | nil => simp
  | cons s rest ih =>
    simp only [List.foldl_cons, ih, sumCounts_bumpPath, List.length_cons]
    omega

/-- C10: the viewer count the Streams page displays for a stream equals the
number of listed sessions whose path equals that stream's path (0 when no
session matches), and the per-path counts sum to the total number of
sessions. -/
theorem viewer_counts_correct :
    (∀ (sessions : List ViewerSession) (path : String),
      displayedViewerCount sessions path
        = (sessions.filter (fun s => s.path = path)).length) ∧
    (∀ sessions : List ViewerSession,
      sumCounts (viewersByPath sessions) = sessions.length) := by
  constructor
  · intro sessions path
    have h := countFor_fold sessions [] path
    simpa [displayedViewerCount, viewersByPath, countFor] using h
  · intro sessions
    have h := sumCounts_fold sessions []
    simpa [viewersByPath, sumCounts] using h

/-! ## Session Registry & Kick Coordinator -/

/-- Error taxonomy of the control plane (spec section 7). -/
inductive CtrlError where
  | validationError
  | notFound
  | nodeUnreachable
  | alreadyInProgress
  | unsupportedProtocol
deriving DecidableEq

/-- Modelled from the spec: the set of session protocols the control plane
understands (`protocol ∈ {rtsp, rtsps, webrtc, rtmp, srt}` in the
ViewerSession data model); the Kick Coordinator itself ships no code in the
repository, only its caller `kickMutation` in StreamViewersModal. -/
def supportedProtocols : List String :=
  ["rtsp", "rtsps", "webrtc", "rtmp", "srt"]

/-- Outcome of a kick request, `{success, error?}`. -/
structure KickResult where
  success : Bool
  error : Option CtrlError
deriving DecidableEq

/-- A protocol-specific termination call issued to an owning node. -/
structure NodeCall where
  node_id : Nat
  session_id : String
  protocol : String
deriving DecidableEq

/-- Modelled from the spec: `kick(node_id, session_id, protocol)` dispatches
a protocol-specific termination call to the owning node; an unknown protocol
fails with `UnsupportedProtocol` rather than silently no-op-ing. The second
component lists the node calls the coordinator issued. -/
def kick (nodeId : Nat) (sessionId : String) (protocol : String) :
    KickResult × List NodeCall :=
  if supportedProtocols.contains protocol then
    (⟨true, none⟩, [⟨nodeId, sessionId, protocol⟩])
  else
    (⟨false, some .unsupportedProtocol⟩, [])

/-- C9: a kick request with a protocol outside the supported set returns the
`UnsupportedProtocol` error and issues no call to the owning node. -/
theorem kick_unsupported_protocol (nodeId : Nat) (sessionId protocol : String)
    (h : protocol ∉ supportedProtocols) :
    (kick nodeId sessionId protocol).1.success = false ∧
    (kick nodeId sessionId protocol).1.error = some .unsupportedProtocol ∧
    (kick nodeId sessionId protocol).2 = [] := by
  simp [kick, h]

/-- Witness for C9: kicking with protocol "quic" fails with
`UnsupportedProtocol` and no node call. -/
theorem kick_unsupported_protocol_witness :
    "quic" ∉ supportedProtocols ∧
    ((kick 1 "s1" "quic").1.success = false ∧
     (kick 1 "s1" "quic").1.error = some .unsupportedProtocol ∧
     (kick 1 "s1" "quic").2 = []) :=
  ⟨by decide, kick_unsupported_protocol 1 "s1" "quic" (by decide)⟩

/-! ## Remediation Engine -/

/-- `RemediationOutcome`: `{success, total_attempts, last_error?}`. -/
structure RemediationOutcome where
  success : Bool
  total_attempts : Nat
  last_error : Option String
deriving DecidableEq

/-- Modelled from the spec: the attempt loop of the Remediation Engine (the
repository ships only its caller `remediateMutation` in Streams.tsx lines
119-134). Each attempt performs the remediation actions and is followed by a
fresh probe; `probeHealthy i` is the classification of the probe after
attempt `i + 1`. Success is declared on the first healthy probe; `remaining`
counts attempts left under the cap, `done` counts attempts performed. -/
def remediateGo (probeHealthy : Nat → Bool) : Nat → Nat → RemediationOutcome
  | 0, done => ⟨false, done, if done = 0 then none else some "still unhealthy"⟩
  | remaining + 1, done =>
    if probeHealthy done then ⟨true, done + 1, none⟩
    else remediateGo probeHealthy remaining (done + 1)

/-- Modelled from the spec: run a remediation with capped attempts
(default cap 3). -/
def runRemediation (cap : Nat) (probeHealthy : Nat → Bool) :
    RemediationOutcome :=
  remediateGo probeHealthy cap 0

theorem remediateGo_attempts_le (probeHealthy : Nat → Bool)
    (remaining done : Nat) :
    (remediateGo probeHealthy remaining done).total_attempts ≤
      done + remaining := by
  induction remaining generalizing done with
  | zero => simp [remediateGo]
  | succ r ih =>
    by_cases h : probeHealthy done = true
    · simp only [remediateGo, h, if_true]
      omega
    · simp only [remediateGo, h, Bool.false_eq_true, if_false]
      have := ih (done + 1)
      omega

theorem remediateGo_success_iff (probeHealthy : Nat → Bool)
    (remaining done : Nat) :
    (remediateGo probeHealthy remaining done).success = true ↔
      ∃ i, i < remaining ∧ probeHealthy (done + i) = true := by
  induction remaining generalizing done with
  | zero => simp [remediateGo]
  | succ r ih =>
    by_cases h : probeHealthy done = true
    · constructor
      · intro _
        exact ⟨0, by omega, by simpa using h⟩
      · intro _
        simp [remediateGo, h]
    · simp only [remediateGo, h, Bool.false_eq_true, if_false]
      rw [ih (done + 1)]
      constructor
      · rintro ⟨i, hi, hp⟩
        refine ⟨i + 1, by omega, ?_⟩
        have e : done + (i + 1) = done + 1 + i := by omega
        rw [e]
        exact hp
      · rintro ⟨i, hi, hp⟩
        match i, hi, hp with
        | 0, hi, hp =>
          rw [Nat.add_zero] at hp
          rw [hp] at h
          simp at h
        | i + 1, hi, hp =>
          refine ⟨i, by omega, ?_⟩
          have e : done + 1 + i = done + (i + 1) := by omega
          rw [e]
          exact hp

/-- C5: a remediation run performs at most the capped number of attempts,
succeeds exactly when some probe within the cap classifies healthy, and with
cap 3 and all probes unhealthy returns
`RemediationOutcome{success := false, total_attempts := 3}`. -/
theorem remediation_capped_and_success (cap : Nat)
    (probeHealthy : Nat → Bool) :
    (runRemediation cap probeHealthy).total_attempts ≤ cap ∧
    ((runRemediation cap probeHealthy).success = true ↔
      ∃ i, i < cap ∧ probeHealthy i = true) ∧
    runRemediation 3 (fun _ => false) =
      ⟨false, 3, some "still unhealthy"⟩ := by
  refine ⟨?_, ?_, by decide⟩
  · simpa using remediateGo_attempts_le probeHealthy cap 0
  · simpa using remediateGo_success_iff probeHealthy cap 0

/-! ## Retention & Archival Engine -/

/-- Recording segment types from the data model. -/
inductive SegmentType where
  | continuous
  | event
  | manual
deriving DecidableEq

/-- Recording metadata from the data model (spec section 3). -/
structure Recording where
  id : Nat
  stream_id : Nat
  stream_path : String
  segment_type : SegmentType
  start_time : Nat
  duration_seconds : Nat
  file_size : Nat
  file_path : String
  is_archived : Bool
  expires_at : Option Nat
deriving DecidableEq

/-- Modelled from the spec: the state of one storage root tracked by the
Retention & Archival Engine (the engine ships no code in the repository, only
its caller `cleanupMutation` in the Recordings page). `recordings` is kept in
ascending age order, oldest first; `capacity` and `usedOther` describe the
disk, `usedOther` being the space used by everything but the tracked
recordings. -/
structure RetentionState where
  recordings : List Recording
  capacity : Nat
  usedOther : Nat
deriving DecidableEq

/-- Total size of a set of recordings. -/
def totalSize (recs : List Recording) : Nat :=
  (recs.map Recording.file_size).sum

/-- Disk usage percent for a storage root holding `recs`. -/
def usagePct (cap other : Nat) (recs : List Recording) : Nat :=
  (other + totalSize recs) * 100 / cap

/-- Cleanup rule (a) predicate: `expires_at` in the past and not archived. -/
def expiredUnarchived (now : Nat) (r : Recording) : Bool :=
  !r.is_archived &&
    (match r.expires_at with
     | some e => decide (e < now)
     | none => false)

/-- Does any unarchived recording remain? -/
def hasUnarchived (recs : List Recording) : Bool :=
  recs.any (fun r => !r.is_archived)

/-- Delete the oldest unarchived recording (the first one, since the list is
oldest-first); `none` when every recording is archived. -/
def removeFirstUnarchived : List Recording → Option (List Recording)
  | [] => none
  | r :: rs =>
    if r.is_archived then (removeFirstUnarchived rs).map (fun l => r :: l)
    else some rs

/-- Modelled from the spec: cleanup rule (b) — while disk usage exceeds the
critical threshold, delete unarchived recordings oldest-first, re-checking
usage after each deletion, until usage drops to the threshold or below or no
unarchived recording remains. `fuel` bounds the recursion and is passed as
the list length by `runCleanup`. Returns the surviving recordings and the
number deleted. -/
def pressureLoop (cap other thr : Nat) : Nat → List Recording → List Recording × Nat
  | 0, recs => (recs, 0)
  | fuel + 1, recs =>
    if usagePct cap other recs > thr then
      match removeFirstUnarchived recs with
      | none => (recs, 0)
      | some rs =>
        let p := pressureLoop cap other thr fuel rs
        (p.1, p.2 + 1)
    else (recs, 0)

/-- The recordings left after deleting the `n` oldest unarchived ones. -/
def dropUnarchivedN : Nat → List Recording → List Recording
  | 0, recs => recs
  | n + 1, recs =>
    match removeFirstUnarchived recs with
    | none => recs
    | some rs => dropUnarchivedN n rs

/-- Cleanup rule (a): the recordings surviving the expiry sweep. -/
def cleanupSurvivors (now : Nat) (recs : List Recording) : List Recording :=
  recs.filter (fun r => !(expiredUnarchived now r))

/-- Modelled from the spec: `run_cleanup(dry_run) -> {deleted_count}` for one
storage root — rule (a) deletes expired unarchived recordings, rule (b) then
relieves disk pressure oldest-first; `dry_run = true` reports the count
without changing state. Returns the new state and `deleted_count`. -/
def runCleanup (dryRun : Bool) (now thr : Nat) (st : RetentionState) :
    RetentionState × Nat :=
  let survivors := cleanupSurvivors now st.recordings
  let nA := st.recordings.length - survivors.length
  let p := pressureLoop st.capacity st.usedOther thr survivors.length survivors
  if dryRun then (st, nA + p.2)
  else ({ st with recordings := p.1 }, nA + p.2)

theorem removeFirstUnarchived_eq_none (recs : List Recording) :
    removeFirstUnarchived recs = none ↔ hasUnarchived recs = false := by
  induction recs with
  | nil => simp [removeFirstUnarchived, hasUnarchived]
  | cons r rs ih =>
    by_cases h : r.is_archived = true
    · simp only [removeFirstUnarchived, h, if_true, Option.map_eq_none',
        hasUnarchived, List.any_cons] at ih ⊢
      simp [h, ih]
    · simp [removeFirstUnarchived, hasUnarchived,
        Bool.not_eq_true r.is_archived ▸ h, h]

theorem removeFirstUnarchived_length (recs rs : List Recording)
    (h : removeFirstUnarchived recs = some rs) :
    rs.length + 1 = recs.length := by
  induction recs generalizing rs with
  | nil => simp [removeFirstUnarchived] at h
  | cons r l ih =>
    by_cases ha : r.is_archived = true
    · simp only [removeFirstUnarchived, ha, if_true] at h
      cases hm : removeFirstUnarchived l with
      | none => rw [hm] at h; simp at h
      | some l' =>
        rw [hm] at h
        simp only [Option.map_some', Option.some.injEq] at h
        have := ih l' hm
        rw [← h]
        simp
        omega
    · simp only [removeFirstUnarchived, ha, Bool.false_eq_true, if_false,
        Option.some.injEq] at h
      rw [← h]
      simp

theorem removeFirstUnarchived_sublist (recs rs : List Recording)
    (h : removeFirstUnarchived recs = some rs) :
    rs.Sublist recs := by
  induction recs generalizing rs with
  | nil => simp [removeFirstUnarchived] at h
  | cons r l ih =>
    by_cases ha : r.is_archived = true
    · simp only [removeFirstUnarchived, ha, if_true] at h
      cases hm : removeFirstUnarchived l with
      | none => rw [hm] at h; simp at h
      | some l' =>
        rw [hm] at h
        simp only [Option.map_some', Option.some.injEq] at h
        rw [← h]
        exact (ih l' hm).cons₂ r
    · simp only [removeFirstUnarchived, ha, Bool.false_eq_true, if_false,
        Option.some.injEq] at h
      rw [← h]
      exact List.sublist_cons_self r l

theorem removeFirstUnarchived_keeps_archived (recs rs : List Recording)
    (r : Recording) (hr : r.is_archived = true) (hm : r ∈ recs)
    (h : removeFirstUnarchived recs = some rs) : r ∈ rs := by
  induction recs generalizing rs with
  | nil => simp at hm
  | cons a l ih =>
    by_cases ha : a.is_archived = true
    · simp only [removeFirstUnarchived, ha, if_true] at h
      cases hml : removeFirstUnarchived l with
      | none => rw [hml] at h; simp at h
      | some l' =>
        rw [hml] at h
        simp only [Option.map_some', Option.some.injEq] at h
        rw [← h]
        rcases List.mem_cons.mp hm with he | hl
        · exact he ▸ List.mem_cons_self a l'
        · exact List.mem_cons_of_mem a (ih l' hl hml)
    · simp only [removeFirstUnarchived, ha, Bool.false_eq_true, if_false,
        Option.some.injEq] at h
      rcases List.mem_cons.mp hm with he | hl
      · rw [he] at hr; exact absurd hr ha
      · exact h ▸ hl

theorem dropUnarchivedN_sublist (n : Nat) (recs : List Recording) :
    (dropUnarchivedN n recs).Sublist recs := by
  induction n generalizing recs with
  | zero => exact List.Sublist.refl recs
  | succ m ih =>
    cases hm : removeFirstUnarchived recs with
    | none => simp [dropUnarchivedN, hm]
    | some rs =>
      simp only [dropUnarchivedN, hm]
      exact (ih rs).trans (removeFirstUnarchived_sublist recs rs hm)

theorem dropUnarchivedN_keeps_archived (n : Nat) (recs : List Recording)
    (r : Recording) (hr : r.is_archived = true) (hm : r ∈ recs) :
    r ∈ dropUnarchivedN n recs := by
  induction n generalizing recs with
  | zero => exact hm
  | succ m ih =>
    cases hrm : removeFirstUnarchived recs with
    | none => simpa [dropUnarchivedN, hrm] using hm
    | some rs =>
      simp only [dropUnarchivedN, hrm]
      exact ih rs (removeFirstUnarchived_keeps_archived recs rs r hr hm hrm)

theorem pressureLoop_spec (cap other thr fuel : Nat) (recs : List Recording)
    (hf : recs.length ≤ fuel) :
    (pressureLoop cap other thr fuel recs).1
      = dropUnarchivedN (pressureLoop cap other thr fuel recs).2 recs ∧
    (usagePct cap other (pressureLoop cap other thr fuel recs).1 ≤ thr ∨
      hasUnarchived (pressureLoop cap other thr fuel recs).1 = false) ∧
    (∀ j, j < (pressureLoop cap other thr fuel recs).2 →
      usagePct cap other (dropUnarchivedN j recs) > thr ∧
      hasUnarchived (dropUnarchivedN j recs) = true) := by
  induction fuel generalizing recs with
  | zero =>
    have : recs = [] := List.eq_nil_of_length_eq_zero (Nat.le_zero.mp hf)
    subst this
    refine ⟨rfl, Or.inr rfl, ?_⟩
    intro j hj
    simp [pressureLoop] at hj
  | succ f ih =>
    by_cases hu : usagePct cap other recs > thr
    · cases hrm : removeFirstUnarchived recs with
      | none =>
        simp only [pressureLoop, hu, if_true, hrm]
        refine ⟨rfl, Or.inr ((removeFirstUnarchived_eq_none recs).mp hrm), ?_⟩
        intro j hj
        omega
      | some rs =>
        have hlen : rs.length ≤ f := by
          have := removeFirstUnarchived_length recs rs hrm
          omega
        obtain ⟨ih1, ih2, ih3⟩ := ih rs hlen
        simp only [pressureLoop, hu, if_true, hrm]
        refine ⟨?_, ih2, ?_⟩
        · rw [ih1]
          simp [dropUnarchivedN, hrm]
        · intro j hj
          match j with
          | 0 =>
            refine ⟨hu, ?_⟩
            have hne : removeFirstUnarchived recs ≠ none := by simp [hrm]
            rcases hb : hasUnarchived recs with _ | _
            · exact absurd ((removeFirstUnarchived_eq_none recs).mpr hb) hne
            · simpa [dropUnarchivedN] using hb
          | j' + 1 =>
            have hj' : j' < (pressureLoop cap other thr f rs).2 := by omega
            have := ih3 j' hj'
            simpa [dropUnarchivedN, hrm] using this
    · simp only [pressureLoop, hu, if_false]
      refine ⟨rfl, Or.inl (by omega), ?_⟩
      intro j hj
      omega

theorem pressureLoop_stop (cap other thr fuel : Nat) (recs : List Recording)
    (h : usagePct cap other recs ≤ thr ∨ hasUnarchived recs = false) :
    pressureLoop cap other thr fuel recs = (recs, 0) := by
  cases fuel with
  | zero => rfl
  | succ f =>
    by_cases hu : usagePct cap other recs > thr
    · have hna : hasUnarchived recs = false := by
        rcases h with h | h
        · omega
        · exact h
      have hrm : removeFirstUnarchived recs = none :=
        (removeFirstUnarchived_eq_none recs).mpr hna
      simp [pressureLoop, hu, hrm]
    · simp [pressureLoop, hu]

/-- The spec's retention test state: ten unarchived recordings, oldest
first, none expired. -/
def demoRecording (i : Nat) : Recording :=
  { id := i, stream_id := 1, stream_path := "cam1",
    segment_type := .continuous, start_time := i, duration_seconds := 60,
    file_size := 25, file_path := "/rec/cam1", is_archived := false,
    expires_at := none }

/-- Storage root at 96% usage with ten unarchived recordings of 25 units
each on a 1000-unit disk. -/
def demoState : RetentionState :=
  { recordings := (List.range 10).map demoRecording,
    capacity := 1000, usedOther := 710 }

/-- An archived recording used to check that cleanup never touches it. -/
def demoArchived : Recording :=
  { id := 100, stream_id := 2, stream_path := "cam2",
    segment_type := .manual, start_time := 0, duration_seconds := 60,
    file_size := 25, file_path := "/rec/cam2", is_archived := true,
    expires_at := some 0 }

/-- A storage root under pressure holding one archived and two unarchived
recordings. -/
def demoStateMixed : RetentionState :=
  { recordings := [demoArchived, demoRecording 1, demoRecording 2],
    capacity := 100, usedOther := 20 }

theorem runCleanup_real_eq (now thr : Nat) (st : RetentionState) :
    runCleanup false now thr st
      = ({ st with recordings := (pressureLoop st.capacity st.usedOther thr
            (cleanupSurvivors now st.recordings).length
            (cleanupSurvivors now st.recordings)).1 },
         (st.recordings.length - (cleanupSurvivors now st.recordings).length)
           + (pressureLoop st.capacity st.usedOther thr
               (cleanupSurvivors now st.recordings).length
               (cleanupSurvivors now st.recordings)).2) := rfl

/-- C1: one cleanup run deletes every unarchived recording whose expiry is
past, never deletes an archived recording, stops relieving pressure as soon
as usage no longer exceeds the threshold or no unarchived recording remains,
and each pressure deletion happens only while usage still exceeds the
threshold (so the deleted recordings are exactly the minimal oldest prefix);
on the spec's ten-recording state at 96% with threshold 90%, it deletes
exactly 3 recordings and lands below 90%. -/
theorem cleanup_policy (now thr : Nat) (st : RetentionState) :
    (∀ r ∈ st.recordings, expiredUnarchived now r = true →
        r ∉ ((runCleanup false now thr st).1).recordings) ∧
    (∀ r ∈ st.recordings, r.is_archived = true →
        r ∈ ((runCleanup false now thr st).1).recordings) ∧
    (usagePct st.capacity st.usedOther
        ((runCleanup false now thr st).1).recordings ≤ thr ∨
      hasUnarchived ((runCleanup false now thr st).1).recordings = false) ∧
    (∀ j, j < (pressureLoop st.capacity st.usedOther thr
          (cleanupSurvivors now st.recordings).length
          (cleanupSurvivors now st.recordings)).2 →
        usagePct st.capacity st.usedOther
            (dropUnarchivedN j (cleanupSurvivors now st.recordings)) > thr ∧
        hasUnarchived
            (dropUnarchivedN j (cleanupSurvivors now st.recordings)) = true) ∧
    usagePct demoState.capacity demoState.usedOther demoState.recordings = 96 ∧
    (runCleanup false 0 90 demoState).2 = 3 ∧
    usagePct demoState.capacity demoState.usedOther
      ((runCleanup false 0 90 demoState).1).recordings < 90 := by
  obtain ⟨h1, h2, h3⟩ := pressureLoop_spec st.capacity st.usedOther thr
    (cleanupSurvivors now st.recordings).length
    (cleanupSurvivors now st.recordings) (Nat.le_refl _)
  have hres : ((runCleanup false now thr st).1).recordings
      = (pressureLoop st.capacity st.usedOther thr
          (cleanupSurvivors now st.recordings).length
          (cleanupSurvivors now st.recordings)).1 := by
    rw [runCleanup_real_eq]
  refine ⟨?_, ?_, ?_, h3, by decide, by decide, by decide⟩
  · intro r hr hexp hmem
    rw [hres, h1] at hmem
    have hS : r ∈ cleanupSurvivors now st.recordings :=
      (dropUnarchivedN_sublist _ _).subset hmem
    have hS' : r ∈ st.recordings.filter (fun x => !(expiredUnarchived now x)) := hS
    have hp := (List.mem_filter.mp hS').2
    rw [hexp] at hp
    simp at hp
  · intro r hr harch
    have hS : r ∈ cleanupSurvivors now st.recordings := by
      apply List.mem_filter.mpr
      refine ⟨hr, ?_⟩
      simp [expiredUnarchived, harch]
    rw [hres, h1]
    exact dropUnarchivedN_keeps_archived _ _ r harch hS
  · rw [hres]
    exact h2

/-- Witness for C1: on the mixed demo state the archived recording survives
a real cleanup. -/
theorem cleanup_policy_witness :
    demoArchived ∈ ((runCleanup false 0 90 demoStateMixed).1).recordings :=
  (cleanup_policy 0 90 demoStateMixed).2.1 demoArchived (by decide) (by decide)

/-- C8: a dry run reports the same `deleted_count` as an immediately
following real run over unchanged state while changing nothing itself, and a
real run immediately after a real run deletes nothing. -/
theorem cleanup_dry_run_consistent (now thr : Nat) (st : RetentionState) :
    (runCleanup true now thr st).2 = (runCleanup false now thr st).2 ∧
    (runCleanup true now thr st).1 = st ∧
    (runCleanup false now thr ((runCleanup false now thr st).1)).2 = 0 := by
  refine ⟨rfl, rfl, ?_⟩
  obtain ⟨h1, h2, h3⟩ := pressureLoop_spec st.capacity st.usedOther thr
    (cleanupSurvivors now st.recordings).length
    (cleanupSurvivors now st.recordings) (Nat.le_refl _)
  have hsub : (pressureLoop st.capacity st.usedOther thr
      (cleanupSurvivors now st.recordings).length
      (cleanupSurvivors now st.recordings)).1.Sublist
        (cleanupSurvivors now st.recordings) := by
    rw [h1]
    exact dropUnarchivedN_sublist _ _
  have hfilt : cleanupSurvivors now (pressureLoop st.capacity st.usedOther thr
      (cleanupSurvivors now st.recordings).length
      (cleanupSurvivors now st.recordings)).1
        = (pressureLoop st.capacity st.usedOther thr
            (cleanupSurvivors now st.recordings).length
            (cleanupSurvivors now st.recordings)).1 := by
    simp only [cleanupSurvivors]
    apply List.filter_eq_self.mpr
    intro a ha
    have haS := hsub.subset ha
    simp only [cleanupSurvivors] at haS
    exact (List.mem_filter.mp haS).2
  have hstop := pressureLoop_stop st.capacity st.usedOther thr
    (pressureLoop st.capacity st.usedOther thr
      (cleanupSurvivors now st.recordings).length
      (cleanupSurvivors now st.recordings)).1.length
    (pressureLoop st.capacity st.usedOther thr
      (cleanupSurvivors now st.recordings).length
      (cleanupSurvivors now st.recordings)).1 h2
  rw [runCleanup_real_eq now thr st]
  rw [runCleanup_real_eq now thr _]
  simp only [hfilt, hstop]
  simp

/-! ## Config Lifecycle Manager -/

/-- Whitespace characters stripped by body normalization. -/
def isSpaceChar (c : Char) : Bool :=
  c == ' ' || c == '\t' || c == '\n' || c == '\r'

/-- Modelled from the spec: normalization of a configuration body before
hashing — surrounding whitespace is stripped (the Config Lifecycle Manager
ships no code in the repository, only its callers planMutation,
applyMutation and rollbackMutation in the Config page). -/
def normalizeBody (body : String) : List Char :=
  ((body.data.dropWhile isSpaceChar).reverse.dropWhile isSpaceChar).reverse

/-- Modelled from the spec: deterministic content hash of the normalized
body, a 64-bit polynomial rolling hash. -/
def configHash (body : String) : Nat :=
  (normalizeBody body).foldl
    (fun h c => (h * 31 + c.toNat) % (2 ^ 64)) 5381

/-- Modelled from the spec: pure, side-effect-free validation of a proposed
configuration body. -/
def validateBody (body : String) : Bool :=
  normalizeBody body != []

/-- `ConfigSnapshot` from the data model (spec section 3); `node_id = none`
means fleet-wide. -/
structure ConfigSnapshot where
  id : Nat
  node_id : Option Nat
  config_hash : Nat
  config_body : String
  notes : String
  applied : Bool
  applied_by : String
  created_at : Nat
deriving DecidableEq

/-- Modelled from the spec: the Config Lifecycle Manager's append-only
snapshot log with a monotone id source and clock. -/
structure ConfigState where
  snapshots : List ConfigSnapshot
  nextId : Nat
  clock : Nat
deriving DecidableEq

/-- `validation` part of a plan result. -/
structure ValidationReport where
  valid : Bool
  errors : List String
  warnings : List String
deriving DecidableEq

/-- `diff` part of a plan result. -/
structure DiffReport where
  has_changes : Bool
  unified_diff : String
deriving DecidableEq

/-- Result of `plan`. -/
structure PlanResult where
  validation : ValidationReport
  diff : DiffReport
  can_apply : Bool
deriving DecidableEq

/-- Result of `apply` and `rollback`: `{success, error?}`. -/
structure ApplyResult where
  success : Bool
  error : Option String
deriving DecidableEq

/-- Does a snapshot belong to the target scope (node-specific if a node id
is given, else fleet-wide)? -/
def scopeMatches (scope : Option Nat) (s : ConfigSnapshot) : Bool :=
  s.node_id == scope

/-- Modelled from the spec: the most recent snapshot applicable to the
target scope (the log is oldest-first, so search from the end). -/
def latestApplicable (snaps : List ConfigSnapshot) (scope : Option Nat) :
    Option ConfigSnapshot :=
  snaps.reverse.find? (scopeMatches scope)

/-- Modelled from the spec: validation report for a proposed body. -/
def validationReport (body : String) : ValidationReport :=
  if validateBody body then ⟨true, [], []⟩
  else ⟨false, ["config body is empty"], []⟩

/-- Modelled from the spec: `plan(node_id?, config_body)`; the diff is
computed against the most recent applicable snapshot via hash comparison;
`can_apply` is true iff validation passes, regardless of changes. -/
def planConfig (st : ConfigState) (scope : Option Nat) (body : String) :
    PlanResult :=
  let v := validationReport body
  let hc :=
    match latestApplicable st.snapshots scope with
    | none => true
    | some s => configHash body != s.config_hash
  { validation := v,
    diff := { has_changes := hc,
              unified_diff := if hc then "(body differs from last snapshot)" else "" },
    can_apply := v.valid }

/-- The snapshot `apply` persists before pushing: `applied` starts false. -/
def mkSnapshot (st : ConfigState) (scope : Option Nat) (body notes : String) :
    ConfigSnapshot :=
  { id := st.nextId, node_id := scope, config_hash := configHash body,
    config_body := body, notes := notes, applied := false,
    applied_by := "ui", created_at := st.clock }

/-- Modelled from the spec: persist a new content-addressed snapshot at the
end of the append-only log. -/
def persistSnapshot (st : ConfigState) (scope : Option Nat)
    (body notes : String) : ConfigState :=
  { snapshots := st.snapshots ++ [mkSnapshot st scope body notes],
    nextId := st.nextId + 1, clock := st.clock + 1 }

/-- Flip `applied` to true on the newest snapshot (the one just persisted). -/
def setLastApplied : List ConfigSnapshot → List ConfigSnapshot
  | [] => []
  | [s] => [{ s with applied := true }]
  | s :: rest => s :: setLastApplied rest

/-- Mark the just-persisted snapshot as applied after a successful push. -/
def markLastApplied (st : ConfigState) : ConfigState :=
  { st with snapshots := setLastApplied st.snapshots }

/-- Modelled from the spec: `apply(node_id?, config_body, notes)` —
re-validates, persists a new snapshot, then attempts the push to the node
(`pushOk` is the outcome of that external call); `applied` is set true only
if the push succeeds, and on push failure the snapshot remains with
`applied = false` and the error is surfaced. -/
def applyConfig (st : ConfigState) (scope : Option Nat) (body notes : String)
    (pushOk : Bool) : ApplyResult × ConfigState :=
  if validateBody body then
    let st1 := persistSnapshot st scope body notes
    if pushOk then (⟨true, none⟩, markLastApplied st1)
    else (⟨false, some "push to node failed"⟩, st1)
  else (⟨false, some "validation failed"⟩, st)

/-- Modelled from the spec: `rollback(snapshot_id)` re-applies the target
snapshot's body as a brand-new apply operation, never mutating history. -/
def rollbackConfig (st : ConfigState) (snapshotId : Nat) (pushOk : Bool) :
    ApplyResult × ConfigState :=
  match st.snapshots.find? (fun s => s.id == snapshotId) with
  | none => (⟨false, some "snapshot not found"⟩, st)
  | some s => applyConfig st s.node_id s.config_body "rollback" pushOk

theorem setLastApplied_append (l : List ConfigSnapshot) (s : ConfigSnapshot) :
    setLastApplied (l ++ [s]) = l ++ [{ s with applied := true }] := by
  induction l with
  | nil => rfl
  | cons a l' ih =>
    cases l' with
    | nil => rfl
    | cons b l'' =>
      show a :: setLastApplied (b :: l'' ++ [s])
          = a :: (b :: l'' ++ [{ s with applied := true }])
      rw [ih]

theorem applyConfig_valid_eq (st : ConfigState) (scope : Option Nat)
    (body notes : String) (pushOk : Bool) (h : validateBody body = true) :
    applyConfig st scope body notes pushOk
      = ((if pushOk then ⟨true, none⟩
          else ⟨false, some "push to node failed"⟩ : ApplyResult),
         { snapshots := st.snapshots
             ++ [{ mkSnapshot st scope body notes with applied := pushOk }],
           nextId := st.nextId + 1, clock := st.clock + 1 }) := by
  cases pushOk with
  | true =>
    simp only [applyConfig, h, if_true, markLastApplied, persistSnapshot,
      setLastApplied_append]
  | false =>
    simp only [applyConfig, h, if_true, Bool.false_eq_true, if_false,
      persistSnapshot]
    rfl

theorem latestApplicable_append (l : List ConfigSnapshot)
    (s : ConfigSnapshot) (scope : Option Nat) :
    latestApplicable (l ++ [s]) scope
      = if scopeMatches scope s then some s else latestApplicable l scope := by
  simp only [latestApplicable, List.reverse_append, List.reverse_singleton,
    List.singleton_append, List.find?_cons]
  cases h : scopeMatches scope s <;> simp [h]

/-- A snapshot already in the log, used by concrete instances. -/
def demoSnapshot : ConfigSnapshot :=
  { id := 0, node_id := none, config_hash := configHash "paths: {}",
    config_body := "paths: {}", notes := "initial", applied := true,
    applied_by := "ui", created_at := 0 }

/-- A one-snapshot config log. -/
def demoConfigState : ConfigState :=
  { snapshots := [demoSnapshot], nextId := 1, clock := 1 }

/-- C2: `config_hash` is a deterministic function of the normalized body;
`plan` reports `has_changes = false` exactly when the proposed body's hash
equals the hash of the most recent applicable snapshot; and applying a body
identical to that snapshot's appends a new snapshot whose hash equals the
prior one while the plan diff reports no changes. -/
theorem config_hash_diff_consistent (b1 b2 : String) (st : ConfigState)
    (scope : Option Nat) (body notes : String) (s : ConfigSnapshot)
    (pushOk : Bool) :
    (normalizeBody b1 = normalizeBody b2 → configHash b1 = configHash b2) ∧
    (latestApplicable st.snapshots scope = some s →
      ((planConfig st scope body).diff.has_changes = false ↔
        configHash body = s.config_hash)) ∧
    (latestApplicable st.snapshots scope = some s →
      configHash body = s.config_hash → validateBody body = true →
      ∃ snap,
        (applyConfig st scope body notes pushOk).2.snapshots
          = st.snapshots ++ [snap] ∧
        snap.config_hash = s.config_hash ∧
        snap.config_body = body ∧
        (planConfig st scope body).diff.has_changes = false) := by
  refine ⟨?_, ?_, ?_⟩
  · intro h
    simp only [configHash, h]
  · intro hla
    simp only [planConfig, hla]
    constructor
    · intro h
      simpa using h
    · intro h
      simp [h]
  · intro hla hhash hval
    refine ⟨{ mkSnapshot st scope body notes with applied := pushOk }, ?_, ?_, rfl, ?_⟩
    · rw [applyConfig_valid_eq st scope body notes pushOk hval]
    · simpa [mkSnapshot] using hhash
    · simp [planConfig, hla, hhash]

/-- Witness for C2: planning the body already in the demo log reports no
changes, and its hash equals the stored one. -/
theorem config_hash_diff_consistent_witness :
    (planConfig demoConfigState none "paths: {}").diff.has_changes = false :=
  (((config_hash_diff_consistent "a" "a" demoConfigState none "paths: {}" ""
      demoSnapshot true).2.1 (by decide)).mpr) rfl

/-- C3: `apply` persists the new snapshot whether or not the push succeeds
(so it exists before the push outcome is known), sets `applied = true`
exactly when the push succeeds, on push failure leaves the snapshot with
`applied = false` and surfaces the error, and leaves every pre-existing
snapshot — including its `applied` flag — untouched, so `applied` can only
flip once, from false to true, at a successful push. -/
theorem apply_snapshot_lifecycle (st : ConfigState) (scope : Option Nat)
    (body notes : String) (pushOk : Bool) (hval : validateBody body = true) :
    ∃ snap,
      (persistSnapshot st scope body notes).snapshots
        = st.snapshots ++ [{ snap with applied := false }] ∧
      (applyConfig st scope body notes pushOk).2.snapshots
        = st.snapshots ++ [snap] ∧
      snap.config_body = body ∧
      snap.config_hash = configHash body ∧
      (snap.applied = true ↔ pushOk = true) ∧
      (pushOk = false →
        (applyConfig st scope body notes pushOk).1.success = false ∧
        (applyConfig st scope body notes pushOk).1.error.isSome = true ∧
        snap.applied = false) ∧
      (pushOk = true → (applyConfig st scope body notes pushOk).1.success = true) ∧
      (∀ old ∈ st.snapshots,
        old ∈ (applyConfig st scope body notes pushOk).2.snapshots) := by
  refine ⟨{ mkSnapshot st scope body notes with applied := pushOk },
    rfl, ?_, rfl, rfl, by simp, ?_, ?_, ?_⟩
  · rw [applyConfig_valid_eq st scope body notes pushOk hval]
  · intro hpush
    subst hpush
    rw [applyConfig_valid_eq st scope body notes false hval]
    simp
  · intro hpush
    subst hpush
    rw [applyConfig_valid_eq st scope body notes true hval]
    rfl
  · intro old hold
    rw [applyConfig_valid_eq st scope body notes pushOk hval]
    simp [hold]

/-- Witness for C3: applying a fresh body to the demo log with a failing
push surfaces the failure. -/
theorem apply_snapshot_lifecycle_witness :
    (applyConfig demoConfigState none "paths:\n  cam1: {}" "n" false).1.success
      = false := by
  obtain ⟨snap, -, -, -, -, -, h6, -, -⟩ :=
    apply_snapshot_lifecycle demoConfigState none "paths:\n  cam1: {}" "n"
      false (by decide)
  exact (h6 rfl).1

/-- C4: a successful rollback never modifies or deletes an existing
snapshot — it appends a brand-new snapshot whose body equals the target's —
and a plan for the same scope with that body immediately afterwards reports
`has_changes = false`. -/
theorem rollback_append_only_plan_clean (st : ConfigState) (snapshotId : Nat)
    (pushOk : Bool)
    (hsucc : (rollbackConfig st snapshotId pushOk).1.success = true) :
    ∃ S snap,
      st.snapshots.find? (fun s => s.id == snapshotId) = some S ∧
      (rollbackConfig st snapshotId pushOk).2.snapshots
        = st.snapshots ++ [snap] ∧
      snap.config_body = S.config_body ∧
      (planConfig (rollbackConfig st snapshotId pushOk).2 S.node_id
          S.config_body).diff.has_changes = false := by
  cases hfind : st.snapshots.find? (fun s => s.id == snapshotId) with
  | none =>
    rw [rollbackConfig, hfind] at hsucc
    simp at hsucc
  | some S =>
    have hrb : rollbackConfig st snapshotId pushOk
        = applyConfig st S.node_id S.config_body "rollback" pushOk := by
      rw [rollbackConfig, hfind]
    cases hval : validateBody S.config_body with
    | false =>
      rw [hrb, applyConfig, hval] at hsucc
      simp at hsucc
    | true =>
      refine ⟨S, { mkSnapshot st S.node_id S.config_body "rollback"
          with applied := pushOk }, ?_, ?_, rfl, ?_⟩
      · rfl
      · rw [hrb, applyConfig_valid_eq st S.node_id S.config_body "rollback"
          pushOk hval]
      · rw [hrb, applyConfig_valid_eq st S.node_id S.config_body "rollback"
          pushOk hval]
        simp [planConfig, latestApplicable_append, scopeMatches, mkSnapshot]

/-- Witness for C4: rolling the demo log back to snapshot 0 succeeds and
yields the appended-snapshot, unchanged-history, clean-plan conclusion. -/
theorem rollback_append_only_plan_clean_witness :
    ∃ S snap,
      demoConfigState.snapshots.find? (fun s => s.id == 0) = some S ∧
      (rollbackConfig demoConfigState 0 true).2.snapshots
        = demoConfigState.snapshots ++ [snap] ∧
      snap.config_body = S.config_body ∧
      (planConfig (rollbackConfig demoConfigState 0 true).2 S.node_id
          S.config_body).diff.has_changes = false :=
  rollback_append_only_plan_clean demoConfigState 0 true (by decide)

/-! ## Health State Machine -/

/-- Stream status from the data model. -/
inductive StreamStatus where
  | unknown
  | healthy
  | degraded
  | unhealthy
deriving DecidableEq

/-- `ProbeResult` fields the classifier reads (spec section 3). -/
structure ProbeResult where
  fps : Nat
  bitrate : Nat
  issues : List String
  error : Option String
deriving DecidableEq

/-- Modelled from the spec: threshold classification of a probe sample —
missing signal or zero fps means unhealthy; fps or bitrate below the
configured floor, or a non-empty issue list, means degraded; else healthy. -/
def classify (floorFps floorBitrate : Nat) (p : ProbeResult) : StreamStatus :=
  if p.error.isSome = true ∨ p.fps = 0 then .unhealthy
  else if p.fps < floorFps ∨ p.bitrate < floorBitrate ∨ p.issues ≠ [] then
    .degraded
  else .healthy

/-- Is a status one of the bad states that may trigger remediation? -/
def isBad : StreamStatus → Bool
  | .degraded => true
  | .unhealthy => true
  | _ => false

/-- The per-stream state the Health State Machine owns. -/
structure StreamEntry where
  id : Nat
  path : String
  status : StreamStatus
  last_check : Nat
  auto_remediate : Bool
deriving DecidableEq

/-- Modelled from the spec: the stream registry with a monotone clock and
the queue of remediation requests the machine has enqueued. -/
structure HealthRegistry where
  streams : List StreamEntry
  clock : Nat
  queue : List Nat
deriving DecidableEq


/-- The classification-and-clock update applied to the probed stream's
entry. -/
def updateEntry (e : StreamEntry) (st : StreamStatus) (t : Nat) : StreamEntry :=
  { e with status := st, last_check := t }

/-- The registry after one probe of stream `sid` whose entry was `e`: the
entry's status and `last_check` are updated, the clock advances, and a
remediation request is enqueued exactly when `auto_remediate` is set and the
new status is bad while the old one was not. -/
def stepRegistry (floorFps floorBitrate : Nat) (reg : HealthRegistry)
    (sid : Nat) (e : StreamEntry) (p : ProbeResult) : HealthRegistry :=
  { streams := reg.streams.map (fun s => if s.id == sid then
      updateEntry e (classify floorFps floorBitrate p) (reg.clock + 1) else s),
    clock := reg.clock + 1,
    queue := if e.auto_remediate
                && isBad (classify floorFps floorBitrate p)
                && !(isBad e.status)
             then reg.queue ++ [sid] else reg.queue }

/-- Modelled from the spec: `record_probe(stream_id, ProbeResult) -> Status`
— fails with `NotFound` for an unknown stream; otherwise classifies the
sample, updates `status`, unconditionally advances `last_check`, and
enqueues a remediation request on a transition into a bad state for an
auto-remediating stream. -/
def recordProbe (floorFps floorBitrate : Nat) (reg : HealthRegistry)
    (sid : Nat) (p : ProbeResult) :
    Except CtrlError (StreamStatus × HealthRegistry) :=
  match reg.streams.find? (fun x => x.id == sid) with
  | none => .error .notFound
  | some e =>
    .ok (classify floorFps floorBitrate p,
         stepRegistry floorFps floorBitrate reg sid e p)

/-- Feed a sequence of probe results for one stream to the machine. -/
def runProbes (floorFps floorBitrate : Nat) (reg : HealthRegistry)
    (sid : Nat) : List ProbeResult → HealthRegistry
  | [] => reg
  | p :: ps =>
    match recordProbe floorFps floorBitrate reg sid p with
    | .error _ => runProbes floorFps floorBitrate reg sid ps
    | .ok (_, reg') => runProbes floorFps floorBitrate reg' sid ps

/-- Number of contiguous bad-state runs started by a status sequence,
given the status before it. -/
def badRunStarts (s0 : StreamStatus) : List StreamStatus → Nat
  | [] => 0
  | s :: rest =>
    (if isBad s = true ∧ isBad s0 = false then 1 else 0) + badRunStarts s rest

theorem find?_map_update (l : List StreamEntry) (sid : Nat)
    (e' : StreamEntry) (he : e'.id = sid) :
    (l.map (fun s => if s.id == sid then e' else s)).find?
        (fun x => x.id == sid)
      = match l.find? (fun x => x.id == sid) with
        | none => none
        | some _ => some e' := by
  induction l with
  | nil => rfl
  | cons a l ih =>
    by_cases h : a.id = sid
    · have ha : (a.id == sid) = true := by simpa using h
      have he2 : (e'.id == sid) = true := by simpa using he
      simp only [List.map_cons, ha, if_true, List.find?_cons, he2]
    · have ha : (a.id == sid) = false := by simpa using h
      simp only [List.map_cons, ha, Bool.false_eq_true, if_false,
        List.find?_cons]
      exact ih

theorem recordProbe_found (floorFps floorBitrate : Nat)
    (reg : HealthRegistry) (sid : Nat) (p : ProbeResult) (e : StreamEntry)
    (hfind : reg.streams.find? (fun x => x.id == sid) = some e) :
    recordProbe floorFps floorBitrate reg sid p
      = .ok (classify floorFps floorBitrate p,
             stepRegistry floorFps floorBitrate reg sid e p) := by
  unfold recordProbe
  rw [hfind]

theorem stepRegistry_find? (floorFps floorBitrate : Nat)
    (reg : HealthRegistry) (sid : Nat) (e : StreamEntry) (p : ProbeResult)
    (hid : e.id = sid) :
    (stepRegistry floorFps floorBitrate reg sid e p).streams.find?
        (fun x => x.id == sid)
      = match reg.streams.find? (fun x => x.id == sid) with
        | none => none
        | some _ =>
          some (updateEntry e (classify floorFps floorBitrate p)
            (reg.clock + 1)) :=
  find?_map_update reg.streams sid
    (updateEntry e (classify floorFps floorBitrate p) (reg.clock + 1)) hid

/-- C7: for a stream known to the registry, every `record_probe` call
strictly increases its `last_check`, whatever the classification result, and
preserves the clock bound; for an unknown stream id it fails with
`NotFound`. -/
theorem record_probe_contract (floorFps floorBitrate : Nat)
    (reg : HealthRegistry) (sid : Nat) (p : ProbeResult)
    (hinv : ∀ e ∈ reg.streams, e.last_check ≤ reg.clock) :
    (∀ e, reg.streams.find? (fun x => x.id == sid) = some e →
      ∃ st' reg' e',
        recordProbe floorFps floorBitrate reg sid p = .ok (st', reg') ∧
        reg'.streams.find? (fun x => x.id == sid) = some e' ∧
        e.last_check < e'.last_check ∧
        (∀ f ∈ reg'.streams, f.last_check ≤ reg'.clock)) ∧
    (reg.streams.find? (fun x => x.id == sid) = none →
      recordProbe floorFps floorBitrate reg sid p = .error .notFound) := by
  constructor
  · intro e hfind
    have hid : e.id = sid := by simpa using List.find?_some hfind
    refine ⟨classify floorFps floorBitrate p,
      stepRegistry floorFps floorBitrate reg sid e p,
      updateEntry e (classify floorFps floorBitrate p) (reg.clock + 1),
      recordProbe_found floorFps floorBitrate reg sid p e hfind, ?_, ?_, ?_⟩
    · rw [stepRegistry_find? floorFps floorBitrate reg sid e p hid, hfind]
    · have hle := hinv e (List.mem_of_find?_eq_some hfind)
      simpa [updateEntry] using Nat.lt_succ_of_le hle
    · intro f hf
      simp only [stepRegistry] at hf
      rcases List.mem_map.mp hf with ⟨s, hs, hfs⟩
      show f.last_check ≤ reg.clock + 1
      by_cases h : (s.id == sid) = true
      · rw [← hfs]
        simp [h, updateEntry]
      · simp only [Bool.not_eq_true] at h
        rw [← hfs]
        simp only [h, Bool.false_eq_true, if_false]
        exact Nat.le_succ_of_le (hinv s hs)
  · intro hnone
    unfold recordProbe
    rw [hnone]

theorem runProbes_queue (floorFps floorBitrate : Nat) (ps : List ProbeResult)
    (reg : HealthRegistry) (sid : Nat) (e : StreamEntry)
    (hfind : reg.streams.find? (fun x => x.id == sid) = some e) :
    (e.auto_remediate = false →
      (runProbes floorFps floorBitrate reg sid ps).queue = reg.queue) ∧
    (e.auto_remediate = true →
      (runProbes floorFps floorBitrate reg sid ps).queue
        = reg.queue ++ List.replicate
            (badRunStarts e.status (ps.map (classify floorFps floorBitrate)))
            sid) := by
  induction ps generalizing reg e with
  | nil =>
    constructor
    · intro _
      rfl
    · intro _
      simp [runProbes, badRunStarts]
  | cons p rest ih =>
    have hid : e.id = sid := by simpa using List.find?_some hfind
    have hrec := recordProbe_found floorFps floorBitrate reg sid p e hfind
    have hstep : runProbes floorFps floorBitrate reg sid (p :: rest)
        = runProbes floorFps floorBitrate
            (stepRegistry floorFps floorBitrate reg sid e p) sid rest := by
      have hdef : runProbes floorFps floorBitrate reg sid (p :: rest)
          = match recordProbe floorFps floorBitrate reg sid p with
            | .error _ => runProbes floorFps floorBitrate reg sid rest
            | .ok (_, r) => runProbes floorFps floorBitrate r sid rest := rfl
      rw [hdef, hrec]
    have hfind' : (stepRegistry floorFps floorBitrate reg sid e p).streams.find?
        (fun x => x.id == sid)
        = some (updateEntry e (classify floorFps floorBitrate p)
            (reg.clock + 1)) := by
      rw [stepRegistry_find? floorFps floorBitrate reg sid e p hid, hfind]
    obtain ⟨ih1, ih2⟩ := ih (stepRegistry floorFps floorBitrate reg sid e p)
      (updateEntry e (classify floorFps floorBitrate p) (reg.clock + 1))
      hfind'
    have hauto_eq : (updateEntry e (classify floorFps floorBitrate p)
        (reg.clock + 1)).auto_remediate = e.auto_remediate := rfl
    have hstat : (updateEntry e (classify floorFps floorBitrate p)
        (reg.clock + 1)).status = classify floorFps floorBitrate p := rfl
    have hqueue : (stepRegistry floorFps floorBitrate reg sid e p).queue
        = if e.auto_remediate
             && isBad (classify floorFps floorBitrate p)
             && !(isBad e.status)
          then reg.queue ++ [sid] else reg.queue := rfl
    constructor
    · intro hauto
      rw [hstep, ih1 (hauto_eq.trans hauto), hqueue]
      simp [hauto]
    · intro hauto
      rw [hstep, ih2 (hauto_eq.trans hauto), hstat, hqueue]
      simp only [hauto, Bool.true_and]
      by_cases hb : (isBad (classify floorFps floorBitrate p)
          && !(isBad e.status)) = true
      · have h1 : isBad (classify floorFps floorBitrate p) = true :=
          ((Bool.and_eq_true _ _).mp hb).1
        have h2 : isBad e.status = false := by
          have h2x := ((Bool.and_eq_true _ _).mp hb).2
          simpa using h2x
        rw [if_pos hb]
        simp only [List.map_cons, badRunStarts]
        rw [if_pos ⟨h1, h2⟩]
        rw [List.append_assoc]
        congr 1
        rw [List.replicate_add]
        rfl
      · rw [if_neg hb]
        simp only [List.map_cons, badRunStarts]
        have hcond : ¬(isBad (classify floorFps floorBitrate p) = true
            ∧ isBad e.status = false) := by
          intro hxy
          exact hb (by simp [hxy.1, hxy.2])
        rw [if_neg hcond]
        simp

/-- C6: a stream with `auto_remediate = false` never triggers the
Remediation Engine whatever the probe sequence; with `auto_remediate =
true`, a remediation request is enqueued exactly once per contiguous run of
bad states in the classified sequence. -/
theorem auto_remediate_gating (floorFps floorBitrate : Nat)
    (ps : List ProbeResult) (reg : HealthRegistry) (sid : Nat)
    (e : StreamEntry)
    (hfind : reg.streams.find? (fun x => x.id == sid) = some e) :
    (e.auto_remediate = false →
      (runProbes floorFps floorBitrate reg sid ps).queue = reg.queue) ∧
    (e.auto_remediate = true →
      (runProbes floorFps floorBitrate reg sid ps).queue
        = reg.queue ++ List.replicate
            (badRunStarts e.status (ps.map (classify floorFps floorBitrate)))
            sid) :=
  runProbes_queue floorFps floorBitrate ps reg sid e hfind

/-- A known auto-remediating stream in an otherwise empty registry. -/
def demoEntry : StreamEntry :=
  { id := 1, path := "cam1", status := .unknown, last_check := 0,
    auto_remediate := true }

/-- Registry holding only `demoEntry`. -/
def demoRegistry : HealthRegistry :=
  { streams := [demoEntry], clock := 0, queue := [] }

/-- A healthy probe sample. -/
def demoGoodProbe : ProbeResult :=
  { fps := 30, bitrate := 4000, issues := [], error := none }

/-- A zero-fps (unhealthy) probe sample. -/
def demoBadProbe : ProbeResult :=
  { fps := 0, bitrate := 0, issues := [], error := none }

/-- A stream with `auto_remediate = false`. -/
def demoEntryOff : StreamEntry :=
  { id := 2, path := "cam2", status := .unknown, last_check := 0,
    auto_remediate := false }

/-- Registry holding only `demoEntryOff`. -/
def demoRegistryOff : HealthRegistry :=
  { streams := [demoEntryOff], clock := 0, queue := [] }

/-- Witness for C7: probing the known stream strictly advances its
`last_check`. -/
theorem record_probe_contract_witness :
    ∃ st' reg' e',
      recordProbe 10 1000 demoRegistry 1 demoGoodProbe = .ok (st', reg') ∧
      reg'.streams.find? (fun x => x.id == 1) = some e' ∧
      demoEntry.last_check < e'.last_check ∧
      (∀ f ∈ reg'.streams, f.last_check ≤ reg'.clock) :=
  (record_probe_contract 10 1000 demoRegistry 1 demoGoodProbe (by decide)).1
    demoEntry (by decide)

/-- Witness for C6: two unhealthy probes of a stream with
`auto_remediate = false` enqueue no remediation request. -/
theorem auto_remediate_gating_witness :
    (runProbes 10 1000 demoRegistryOff 2 [demoBadProbe, demoBadProbe]).queue
      = demoRegistryOff.queue :=
  (auto_remediate_gating 10 1000 [demoBadProbe, demoBadProbe] demoRegistryOff
      2 demoEntryOff (by decide)).1 rfl

end MtxToolkit